import Mathlib

/-!
Shallow embedding of the SCE (Semantic Control Encoding) core:
the canonical ontology schema (`ontology.ts`), the emoji index and the
interpreter operations (`types.ts` / interpreter module), and the
validator (`validator.ts`).

Modelling conventions:
* JavaScript `Map` and `Set` are modelled as insertion-ordered
  association lists / lists; `Map.set` updates an existing key in place
  (keeping its position) and appends a fresh key at the end, exactly as
  the JS `Map` does.
* JavaScript objects (the ontology and its categories) are modelled as
  lists of key/value pairs in declaration order, which is the order
  `Object.entries` / `Object.values` yields for string-keyed literals.
* Strings are Lean strings; `String.prototype.includes` is modelled as a
  codepoint-level substring test (`strIncludes`), which agrees with the
  UTF-16 test on well-formed strings.
* The TS field `example` is renamed `exampleText` (`example` is a Lean
  keyword); all other field names follow the source.
-/

/-- Role discriminator (`SceRole` in `types.ts`). -/
inductive SceRole where
  | STRUCTURE
  | LEGAL
  | REASONING
  | TASK
  | PRIVACY
  | ACTOR
  | STATE
  | CONTROL
deriving DecidableEq, Repr

/-- Execution context discriminator (`SceContext` in `types.ts`). -/
inductive SceContext where
  | HUMAN
  | LLM
  | TOOL
deriving DecidableEq, Repr

/-- Usage level discriminator (`SceUsage` in `types.ts`). -/
inductive SceUsage where
  | REQUIRED
  | OPTIONAL
  | CONDITIONAL
deriving DecidableEq, Repr

/-- One symbol definition (`SceSymbolDefinition` in `types.ts`). -/
structure SceSymbolDefinition where
  emoji : String
  role : SceRole
  meaning : String
  allowedContext : List SceContext
  usage : SceUsage
  conflictsWith : List String
  exampleText : String
deriving DecidableEq, Repr

/-- A category: an ordered mapping from definition keys to symbol
definitions (`SceOntologyCategory` in `types.ts`). -/
abbrev SceOntologyCategory := List (String × SceSymbolDefinition)

/-- An ontology: the ordered list of `(categoryName, category)` entries,
as produced by `Object.entries` over an `SceOntologyBase` literal. -/
abbrev SceOntology := List (String × SceOntologyCategory)

/-- JS `Map.get`: value of the first (unique) matching key, else `none`
(JS returns `undefined`). -/
def mapGet {β : Type} : List (String × β) → String → Option β
  | [], _ => none
  | (k', v) :: rest, k => if k' == k then some v else mapGet rest k

/-- JS `Map.set`: overwrite the value of an existing key in place
(keeping the key's insertion position), else append the new entry. -/
def mapSet {β : Type} : List (String × β) → String → β → List (String × β)
  | [], k, v => [(k, v)]
  | (k', v') :: rest, k, v =>
    if k' == k then (k', v) :: rest else (k', v') :: mapSet rest k v

/-- JS `Set.add` for strings: append unless already present. -/
def setAdd (s : List String) (x : String) : List String :=
  if s.contains x then s else s ++ [x]

/-- Substring occurrence over codepoint lists: `pat` occurs contiguously
inside `text`. -/
def includesList : List Char → List Char → Bool
  | [], pat => pat.isEmpty
  | c :: rest, pat => pat.isPrefixOf (c :: rest) || includesList rest pat

/-- JS `text.includes(pat)` modelled at codepoint level. -/
def strIncludes (text pat : String) : Bool :=
  includesList text.data pat.data

/-- The emoji-to-definition index type (`SceOntologyEmojiIndexType`). -/
abbrev EmojiIndex := List (String × SceSymbolDefinition)

/-- `buildEmojiIndex` (`types.ts`): visit every category, then every
definition, in declaration order, and `Map.set` `emoji ↦ definition`. -/
def buildEmojiIndex (ontology : SceOntology) : EmojiIndex :=
  ontology.foldl
    (fun map c => c.2.foldl (fun m kv => mapSet m kv.2.emoji kv.2) map) []

/-- `SceOntologyInterpreter.forEmojis`: look each input emoji up in the
index and push its definition when found; unknown emojis are skipped.
Generic in the indexed value so the reference-level model below can
reuse it; for the source the value type is `SceSymbolDefinition`. -/
def forEmojis {β : Type} (index : List (String × β)) (emojis : List String) :
    List β :=
  emojis.foldl
    (fun result e =>
      match mapGet index e with
      | some d => result ++ [d]
      | none => result) []

/-- `SceOntologyInterpreter.emojiFromText`: iterate the index keys in
insertion order and collect into a `Set` those that occur in `text`. -/
def emojiFromText {β : Type} (index : List (String × β)) (text : String) :
    List String :=
  index.foldl
    (fun found kv => if strIncludes text kv.1 then setAdd found kv.1 else found)
    []

/-- `SceOntologyInterpreter.forText`: `forEmojis` of `emojiFromText`. -/
def forText {β : Type} (index : List (String × β)) (text : String) : List β :=
  forEmojis index (emojiFromText index text)

/-- One iteration of the validator's inner loop (`validator.ts`), over
the accumulated `(errors, seenEmojis)` state: missing-emoji check, then
duplicate check against the seen map (recording a first sighting
otherwise), then the non-empty `allowedContext` check.  In this typed
model `Array.isArray(def.allowedContext)` is always true, so only the
emptiness test remains of the third check.  `!def.emoji` is the JS
falsiness test, i.e. emptiness for a string. -/
def validateDef (acc : List String × List (String × String))
    (path : String) (d : SceSymbolDefinition) :
    List String × List (String × String) :=
  let errs1 :=
    acc.1 ++ (if d.emoji == "" then ["Missing emoji at " ++ path] else [])
  let step2 :=
    match mapGet acc.2 d.emoji with
    | some firstPath =>
      (errs1 ++ ["Duplicate emoji " ++ d.emoji ++ " at " ++ path ++
        ", already used at " ++ firstPath], acc.2)
    | none => (errs1, mapSet acc.2 d.emoji path)
  (step2.1 ++
    (if d.allowedContext.isEmpty then
      ["allowedContext must be non-empty array at " ++ path] else []),
   step2.2)

/-- `validateOntology` (`validator.ts`): fold `validateDef` over every
category and definition in declaration order, starting from no errors
and an empty seen map, and return the accumulated error list. -/
def validateOntology (ontology : SceOntology) : List String :=
  (ontology.foldl
    (fun acc c =>
      c.2.foldl (fun a kv => validateDef a (c.1 ++ "." ++ kv.1) kv.2) acc)
    ([], [])).1
/-- Canonical definition `structure.section` (`ontology.ts`). -/
def sectionDef : SceSymbolDefinition where
  emoji := "🗂️"
  role := SceRole.STRUCTURE
  meaning := "Section divider for major document or prompt segments"
  allowedContext := [SceContext.HUMAN, SceContext.LLM]
  usage := SceUsage.OPTIONAL
  conflictsWith := ["📌", "📎"]
  exampleText := "🗂️ Investigation Timeline"

/-- Canonical definition `structure.pinned` (`ontology.ts`). -/
def pinnedDef : SceSymbolDefinition where
  emoji := "📌"
  role := SceRole.STRUCTURE
  meaning := "Pinned fact or non-negotiable constraint that must remain true"
  allowedContext := [SceContext.HUMAN, SceContext.LLM]
  usage := SceUsage.REQUIRED
  conflictsWith := ["🗂️", "📎"]
  exampleText := "📌 Student was injured on 11/06/24 while on school grounds."

/-- Canonical definition `structure.reference` (`ontology.ts`). -/
def referenceDef : SceSymbolDefinition where
  emoji := "📎"
  role := SceRole.STRUCTURE
  meaning := "Reference or citation marker to a document, exhibit, or source"
  allowedContext := [SceContext.HUMAN, SceContext.LLM, SceContext.TOOL]
  usage := SceUsage.OPTIONAL
  conflictsWith := ["🗂️", "📌"]
  exampleText := "📎 See Incident Report #14 for witness statements."

/-- Canonical definition `legalPolicy.law` (`ontology.ts`). -/
def lawDef : SceSymbolDefinition where
  emoji := "⚖️"
  role := SceRole.LEGAL
  meaning := "Legal framework or authority governing the analysis"
  allowedContext := [SceContext.HUMAN, SceContext.LLM]
  usage := SceUsage.CONDITIONAL
  conflictsWith := []
  exampleText := "⚖️ Title IX §106.45 governs the grievance process."

/-- Canonical definition `legalPolicy.citation` (`ontology.ts`). -/
def citationDef : SceSymbolDefinition where
  emoji := "📜"
  role := SceRole.LEGAL
  meaning := "Citation of a statute, regulation, or formal policy text"
  allowedContext := [SceContext.HUMAN, SceContext.LLM]
  usage := SceUsage.OPTIONAL
  conflictsWith := []
  exampleText := "📜 34 C.F.R. § 99.10 describes the right to inspect education records."

/-- Canonical definition `legalPolicy.complianceRecord` (`ontology.ts`). -/
def complianceRecordDef : SceSymbolDefinition where
  emoji := "🧾"
  role := SceRole.LEGAL
  meaning := "Evidence of compliance, notification, or record of an action taken"
  allowedContext := [SceContext.HUMAN, SceContext.LLM, SceContext.TOOL]
  usage := SceUsage.OPTIONAL
  conflictsWith := []
  exampleText := "🧾 Written notice of allegations was sent to the complainant on 11/20/24."

/-- Canonical definition `legalPolicy.institutionAuthority` (`ontology.ts`). -/
def institutionAuthorityDef : SceSymbolDefinition where
  emoji := "🏛️"
  role := SceRole.LEGAL
  meaning := "Institution, enforcement body, or formal authority involved in the matter"
  allowedContext := [SceContext.HUMAN, SceContext.LLM]
  usage := SceUsage.OPTIONAL
  conflictsWith := []
  exampleText := "🏛️ The Office for Civil Rights (OCR) may review the district’s conduct."

/-- Canonical definition `reasoning.analyze` (`ontology.ts`). -/
def analyzeDef : SceSymbolDefinition where
  emoji := "🔍"
  role := SceRole.REASONING
  meaning := "Analysis, search, or inspection of facts or records"
  allowedContext := [SceContext.HUMAN, SceContext.LLM, SceContext.TOOL]
  usage := SceUsage.OPTIONAL
  conflictsWith := ["✅", "☑️"]
  exampleText := "🔍 Verify whether all witnesses identified by the complainant were interviewed."

/-- Canonical definition `reasoning.insight` (`ontology.ts`). -/
def insightDef : SceSymbolDefinition where
  emoji := "🧠"
  role := SceRole.REASONING
  meaning := "Reasoning, interpretation, or insight based on established facts"
  allowedContext := [SceContext.HUMAN, SceContext.LLM]
  usage := SceUsage.OPTIONAL
  conflictsWith := ["📌"]
  exampleText := "🧠 The delay in providing records suggests potential non-compliance with FERPA timelines."

/-- Canonical definition `reasoning.investigate` (`ontology.ts`). -/
def investigateDef : SceSymbolDefinition where
  emoji := "🕵️"
  role := SceRole.REASONING
  meaning := "Investigative step, determination required, or unresolved question"
  allowedContext := [SceContext.HUMAN, SceContext.LLM, SceContext.TOOL]
  usage := SceUsage.CONDITIONAL
  conflictsWith := ["✅"]
  exampleText := "🕵️ Determine whether a mandated reporter submitted a maltreatment report after the incident."

/-- Canonical definition `tasks.action` (`ontology.ts`). -/
def actionDef : SceSymbolDefinition where
  emoji := "📝"
  role := SceRole.TASK
  meaning := "Actionable instruction or task that should be performed"
  allowedContext := [SceContext.HUMAN, SceContext.LLM, SceContext.TOOL]
  usage := SceUsage.REQUIRED
  conflictsWith := ["📌"]
  exampleText := "📝 Notify the complainant in writing of available supportive measures."

/-- Canonical definition `tasks.todo` (`ontology.ts`). -/
def todoDef : SceSymbolDefinition where
  emoji := "☐"
  role := SceRole.TASK
  meaning := "Unchecked task or item that has not yet been started"
  allowedContext := [SceContext.HUMAN, SceContext.LLM]
  usage := SceUsage.CONDITIONAL
  conflictsWith := ["☑️", "✅"]
  exampleText := "☐ Document all interim measures offered to the complainant."

/-- Canonical definition `tasks.softComplete` (`ontology.ts`). -/
def softCompleteDef : SceSymbolDefinition where
  emoji := "☑️"
  role := SceRole.TASK
  meaning := "Task marked as completed but not yet formally verified"
  allowedContext := [SceContext.HUMAN, SceContext.LLM]
  usage := SceUsage.CONDITIONAL
  conflictsWith := ["☐", "✅"]
  exampleText := "☑️ Drafted written notice of allegations (awaiting legal review)."

/-- Canonical definition `tasks.complete` (`ontology.ts`). -/
def completeDef : SceSymbolDefinition where
  emoji := "✅"
  role := SceRole.TASK
  meaning := "Task fully completed and verified as compliant"
  allowedContext := [SceContext.HUMAN, SceContext.LLM, SceContext.TOOL]
  usage := SceUsage.CONDITIONAL
  conflictsWith := ["☐", "☑️", "🕵️"]
  exampleText := "✅ Provided final written determination to both parties."

/-- Canonical definition `tasks.repeat` (`ontology.ts`). -/
def repeatDef : SceSymbolDefinition where
  emoji := "🔁"
  role := SceRole.TASK
  meaning := "Repeat, retry, or recurring procedural step"
  allowedContext := [SceContext.HUMAN, SceContext.LLM]
  usage := SceUsage.OPTIONAL
  conflictsWith := []
  exampleText := "🔁 Review supportive measures every 30 days for continued adequacy."

/-- Canonical definition `privacy.private` (`ontology.ts`). -/
def privateDef : SceSymbolDefinition where
  emoji := "🔐"
  role := SceRole.PRIVACY
  meaning := "Protected or sensitive information subject to privacy laws"
  allowedContext := [SceContext.HUMAN, SceContext.LLM, SceContext.TOOL]
  usage := SceUsage.CONDITIONAL
  conflictsWith := ["🔓"]
  exampleText := "🔐 Do not store student medical information in this task list."

/-- Canonical definition `privacy.authorized` (`ontology.ts`). -/
def authorizedDef : SceSymbolDefinition where
  emoji := "🗝️"
  role := SceRole.PRIVACY
  meaning := "Authorized access exists under applicable privacy rules"
  allowedContext := [SceContext.HUMAN, SceContext.LLM, SceContext.TOOL]
  usage := SceUsage.OPTIONAL
  conflictsWith := []
  exampleText := "🗝️ Parent access is permitted under FERPA and MN Statute 13."

/-- Canonical definition `privacy.open` (`ontology.ts`). -/
def openDef : SceSymbolDefinition where
  emoji := "🔓"
  role := SceRole.PRIVACY
  meaning := "Information is open, non-sensitive, or publicly available"
  allowedContext := [SceContext.HUMAN, SceContext.LLM, SceContext.TOOL]
  usage := SceUsage.CONDITIONAL
  conflictsWith := ["🔐"]
  exampleText := "🔓 Public policies may be quoted or stored without redaction."

/-- Canonical definition `actors.generic` (`ontology.ts`). -/
def genericDef : SceSymbolDefinition where
  emoji := "👤"
  role := SceRole.ACTOR
  meaning := "Generic person or actor with unspecified role"
  allowedContext := [SceContext.HUMAN, SceContext.LLM]
  usage := SceUsage.OPTIONAL
  conflictsWith := ["🧑‍🎓", "🧑‍🏫", "🧑‍⚖️"]
  exampleText := "👤 A witness reported seeing the incident."

/-- Canonical definition `actors.student` (`ontology.ts`). -/
def studentDef : SceSymbolDefinition where
  emoji := "🧑‍🎓"
  role := SceRole.ACTOR
  meaning := "Student (complainant, respondent, or peer)"
  allowedContext := [SceContext.HUMAN, SceContext.LLM]
  usage := SceUsage.CONDITIONAL
  conflictsWith := ["👤"]
  exampleText := "🧑‍🎓 The complainant reported ongoing unwanted touching."

/-- Canonical definition `actors.teacher` (`ontology.ts`). -/
def teacherDef : SceSymbolDefinition where
  emoji := "🧑‍🏫"
  role := SceRole.ACTOR
  meaning := "Teacher, staff member, or school employee"
  allowedContext := [SceContext.HUMAN, SceContext.LLM]
  usage := SceUsage.CONDITIONAL
  conflictsWith := ["👤"]
  exampleText := "🧑‍🏫 The supervising teacher reports not observing the incident."

/-- Canonical definition `actors.legalAuthority` (`ontology.ts`). -/
def legalAuthorityDef : SceSymbolDefinition where
  emoji := "🧑‍⚖️"
  role := SceRole.ACTOR
  meaning := "Investigatior, decision-maker, or adjudicator"
  allowedContext := [SceContext.HUMAN, SceContext.LLM]
  usage := SceUsage.OPTIONAL
  conflictsWith := ["👤"]
  exampleText := "🧑‍⚖️ The decision-maker must evaluate the evidence impartially."

/-- Canonical definition `actors.organization` (`ontology.ts`). -/
def organizationDef : SceSymbolDefinition where
  emoji := "🏢"
  role := SceRole.ACTOR
  meaning := "Organization, district, school, or institution"
  allowedContext := [SceContext.HUMAN, SceContext.LLM]
  usage := SceUsage.OPTIONAL
  conflictsWith := []
  exampleText := "🏢 The district is responsible for maintaining investigation records."

/-- Canonical definition `state.pending` (`ontology.ts`). -/
def pendingDef : SceSymbolDefinition where
  emoji := "⏳"
  role := SceRole.STATE
  meaning := "Pending, in-progress, or awaiting dependency"
  allowedContext := [SceContext.HUMAN, SceContext.LLM, SceContext.TOOL]
  usage := SceUsage.CONDITIONAL
  conflictsWith := ["❌", "✅"]
  exampleText := "⏳ Awaiting response from the Title IX coordinator."

/-- Canonical definition `state.unclear` (`ontology.ts`). -/
def unclearDef : SceSymbolDefinition where
  emoji := "❓"
  role := SceRole.STATE
  meaning := "Unclear, incomplete, or requiring clarification"
  allowedContext := [SceContext.HUMAN, SceContext.LLM]
  usage := SceUsage.CONDITIONAL
  conflictsWith := []
  exampleText := "❓ It is unclear whether a mandated report was filed."

/-- Canonical definition `state.warning` (`ontology.ts`). -/
def warningDef : SceSymbolDefinition where
  emoji := "⚠️"
  role := SceRole.STATE
  meaning := "Risk, concern, or exception requiring attention"
  allowedContext := [SceContext.HUMAN, SceContext.LLM]
  usage := SceUsage.CONDITIONAL
  conflictsWith := []
  exampleText := "⚠️ No safety plan was implemented despite ongoing contact."

/-- Canonical definition `state.prohibited` (`ontology.ts`). -/
def prohibitedDef : SceSymbolDefinition where
  emoji := "❌"
  role := SceRole.STATE
  meaning := "Prohibited, non-compliant, or invalid action or condition"
  allowedContext := [SceContext.HUMAN, SceContext.LLM]
  usage := SceUsage.CONDITIONAL
  conflictsWith := ["✅"]
  exampleText := "❌ Dismissing the complaint without reviewing evidence violates procedure."

/-- Canonical definition `control.decisionPoint` (`ontology.ts`). -/
def decisionPointDef : SceSymbolDefinition where
  emoji := "🔀"
  role := SceRole.CONTROL
  meaning := "Decision point or branching logic in a process"
  allowedContext := [SceContext.HUMAN, SceContext.LLM]
  usage := SceUsage.OPTIONAL
  conflictsWith := []
  exampleText := "🔀 If the respondent cannot be identified, follow alternative safety procedures."

/-- Canonical definition `control.next` (`ontology.ts`). -/
def nextDef : SceSymbolDefinition where
  emoji := "⏭️"
  role := SceRole.CONTROL
  meaning := "Move to the next step, phase, or workflow position"
  allowedContext := [SceContext.HUMAN, SceContext.LLM]
  usage := SceUsage.OPTIONAL
  conflictsWith := ["⏮️"]
  exampleText := "⏭️ Continue to evaluate access to evidence."

/-- Canonical definition `control.back` (`ontology.ts`). -/
def backDef : SceSymbolDefinition where
  emoji := "⏮️"
  role := SceRole.CONTROL
  meaning := "Return to a previous step or earlier context"
  allowedContext := [SceContext.HUMAN, SceContext.LLM]
  usage := SceUsage.OPTIONAL
  conflictsWith := ["⏭️"]
  exampleText := "⏮️ Revisit the original complaint before continuing."

/-- The canonical vocabulary `SemanticOntologySchema` (`ontology.ts`),
as its ordered `Object.entries` view. -/
def SemanticOntologySchema : SceOntology := [
  ("structure", [("section", sectionDef), ("pinned", pinnedDef), ("reference", referenceDef)]),
  ("legalPolicy", [("law", lawDef), ("citation", citationDef), ("complianceRecord", complianceRecordDef), ("institutionAuthority", institutionAuthorityDef)]),
  ("reasoning", [("analyze", analyzeDef), ("insight", insightDef), ("investigate", investigateDef)]),
  ("tasks", [("action", actionDef), ("todo", todoDef), ("softComplete", softCompleteDef), ("complete", completeDef), ("repeat", repeatDef)]),
  ("privacy", [("private", privateDef), ("authorized", authorizedDef), ("open", openDef)]),
  ("actors", [("generic", genericDef), ("student", studentDef), ("teacher", teacherDef), ("legalAuthority", legalAuthorityDef), ("organization", organizationDef)]),
  ("state", [("pending", pendingDef), ("unclear", unclearDef), ("warning", warningDef), ("prohibited", prohibitedDef)]),
  ("control", [("decisionPoint", decisionPointDef), ("next", nextDef), ("back", backDef)])
]

/-- The ontology's definitions in traversal order (categories in entry
order, then keys in entry order), paired with their `category.key`
path — the traversal both `buildEmojiIndex` and `validateOntology`
perform. -/
def flattenDefs (ontology : SceOntology) :
    List (String × SceSymbolDefinition) :=
  ontology.flatMap (fun c => c.2.map (fun kv => (c.1 ++ "." ++ kv.1, kv.2)))

/-- The ontology's definitions in traversal order, without paths. -/
def flattenVals (ontology : SceOntology) : List SceSymbolDefinition :=
  ontology.flatMap (fun c => c.2.map Prod.snd)

/-- Specification view (spec §4.1): the definition that survives
last-write-wins for grapheme `e` — the last definition in traversal
order whose `emoji` is `e`, if any. -/
def lastDefFor (ontology : SceOntology) (e : String) :
    Option SceSymbolDefinition :=
  (flattenVals ontology).reverse.find? (fun d => d.emoji == e)

/-- Specification view (spec §4.3): the path of the first definition in
the already-traversed list `pre` whose grapheme is `emoji`. -/
def specFirstSight (pre : List (String × SceSymbolDefinition))
    (emoji : String) : Option String :=
  (pre.find? (fun pd => pd.2.emoji == emoji)).map Prod.fst

/-- Specification view (spec §4.3): the diagnostics one definition at
`path` emits, given the first-sighting path of its grapheme among the
earlier definitions: the missing-grapheme message, then the duplicate
message, then the empty-`allowedContext` message. -/
def specDiagnosticsAt (path : String) (d : SceSymbolDefinition)
    (firstPath : Option String) : List String :=
  (if d.emoji == "" then ["Missing emoji at " ++ path] else []) ++
  (match firstPath with
   | some fp => ["Duplicate emoji " ++ d.emoji ++ " at " ++ path ++
       ", already used at " ++ fp]
   | none => []) ++
  (if d.allowedContext.isEmpty then
    ["allowedContext must be non-empty array at " ++ path] else [])

/-- Specification view: accumulate the per-definition diagnostics over
the remaining traversal `rest`, with `pre` the definitions already
traversed (used for first sightings). -/
def specValidateAux (pre rest : List (String × SceSymbolDefinition)) :
    List String :=
  match rest with
  | [] => []
  | (path, d) :: rest' =>
    specDiagnosticsAt path d (specFirstSight pre d.emoji) ++
      specValidateAux (pre ++ [(path, d)]) rest'

/-- Specification view (spec §4.3): the validator's expected output — a
declarative restatement of the diagnostic accumulation, phrased through
first sightings in the flattened traversal. -/
def specValidate (ontology : SceOntology) : List String :=
  specValidateAux [] (flattenDefs ontology)

/-- A symbol definition object as stored on the heap: the array-valued
fields `allowedContext` and `conflictsWith` hold references (store
indices) instead of inline arrays, reflecting JS array identity. -/
structure HeapDef where
  emoji : String
  role : SceRole
  meaning : String
  allowedContext : Nat
  usage : SceUsage
  conflictsWith : Nat
  exampleText : String
deriving DecidableEq, Repr

/-- The mutable store backing the heap model: context arrays, string
arrays and definition objects, addressed by position. -/
structure Store where
  ctxArrays : List (List SceContext)
  strArrays : List (List String)
  defObjs : List HeapDef
deriving DecidableEq, Repr

/-- Read the definition object at `r` and dereference its array fields,
yielding the observable `SceSymbolDefinition` value a caller sees. -/
def readDef (s : Store) (r : Nat) : Option SceSymbolDefinition :=
  match s.defObjs[r]? with
  | none => none
  | some d =>
    some { emoji := d.emoji, role := d.role, meaning := d.meaning,
           allowedContext := s.ctxArrays.getD d.allowedContext [],
           usage := d.usage,
           conflictsWith := s.strArrays.getD d.conflictsWith [],
           exampleText := d.exampleText }

/-- A heap-level index: emoji keys mapping to definition-object refs,
modelling the `Map` held by the live interpreter or by a snapshot. -/
abbrev HeapIndex := List (String × Nat)

/-- Observable result of `forEmojis` against a heap index: the returned
definition objects, dereferenced to their current field values. -/
def resolveObs (s : Store) (index : HeapIndex) (emojis : List String) :
    List (Option SceSymbolDefinition) :=
  (forEmojis index emojis).map (readDef s)

/-- Observable result of `forText` against a heap index. -/
def forTextObs (s : Store) (index : HeapIndex) (text : String) :
    List (Option SceSymbolDefinition) :=
  (forText index text).map (readDef s)

/-- `SceOntologyInterpreter.copyIndex` at heap level: walk the index
entries in order and, for each, allocate a fresh definition object
holding a field-by-field copy of the entry's object (the object spread
copies the field values, so the array references are shared), then
build the snapshot map from the fresh refs. -/
def copyIndex : Store → HeapIndex → Store × HeapIndex
  | s, [] => (s, [])
  | s, (k, r) :: rest =>
    match s.defObjs[r]? with
    | none => copyIndex s rest
    | some d =>
      let r' := s.defObjs.length
      let s1 : Store := { s with defObjs := s.defObjs ++ [d] }
      let p := copyIndex s1 rest
      (p.1, (k, r') :: p.2)

/-- Mutation: replace the definition object at `r` outright (this covers
reassigning any of a snapshot entry's fields); an out-of-range write is
a no-op. -/
def setDefObj (s : Store) (r : Nat) (d : HeapDef) : Store :=
  { s with defObjs := s.defObjs.set r d }

/-- Mutation: in-place `push` of `x` onto the `conflictsWith` array
referenced by the definition object at `r` — what a caller does with
`snapshot.get(e).conflictsWith.push(x)`. -/
def pushConflictsWith (s : Store) (r : Nat) (x : String) : Store :=
  match s.defObjs[r]? with
  | none => s
  | some d =>
    let arr := (s.strArrays.getD d.conflictsWith []) ++ [x]
    { s with strArrays := s.strArrays.set d.conflictsWith arr }

/-- Concrete one-definition store for the snapshot-isolation analysis:
one context array, one (initially empty) conflictsWith array, and one
definition object for the grapheme of `analyzeDef`. -/
def c4Store : Store :=
  { ctxArrays := [[SceContext.HUMAN]],
    strArrays := [[]],
    defObjs := [{ emoji := "🔍", role := SceRole.REASONING, meaning := "m",
                  allowedContext := 0, usage := SceUsage.OPTIONAL,
                  conflictsWith := 0, exampleText := "e" }] }

/-- The live resolver's heap index over `c4Store`. -/
def c4Live : HeapIndex := [("🔍", 0)]

/-- A definition whose grapheme is the empty string (witness data for
the empty-grapheme claims). -/
def emptyEmojiDef : SceSymbolDefinition where
  emoji := ""
  role := SceRole.STRUCTURE
  meaning := "m"
  allowedContext := []
  usage := SceUsage.OPTIONAL
  conflictsWith := []
  exampleText := "e"

/-- A single-category vocabulary whose two definitions both carry the
empty grapheme (witness data). -/
def twoEmptyOntology : SceOntology :=
  [("c", [("a", emptyEmojiDef), ("b", emptyEmojiDef)])]

/-- A vocabulary in which two definitions (in different categories, in
traversal order `structure.first` before `reasoning.second`) share the
grapheme of `analyzeDef` (witness data for last-write-wins). -/
def dupFirstDef : SceSymbolDefinition where
  emoji := "🔍"
  role := SceRole.STRUCTURE
  meaning := "first"
  allowedContext := [SceContext.HUMAN]
  usage := SceUsage.OPTIONAL
  conflictsWith := []
  exampleText := "e1"

/-- The later of the two duplicate-grapheme definitions. -/
def dupSecondDef : SceSymbolDefinition where
  emoji := "🔍"
  role := SceRole.REASONING
  meaning := "second"
  allowedContext := [SceContext.HUMAN]
  usage := SceUsage.OPTIONAL
  conflictsWith := []
  exampleText := "e2"

/-- A two-category vocabulary with a duplicated grapheme. -/
def dupOntology : SceOntology :=
  [("structure", [("first", dupFirstDef)]),
   ("reasoning", [("second", dupSecondDef)])]

/-- A replacement definition object used to overwrite a snapshot entry
in the isolation analysis (witness data). -/
def c4Mutant : HeapDef where
  emoji := "Z"
  role := SceRole.TASK
  meaning := "mutated"
  allowedContext := 0
  usage := SceUsage.REQUIRED
  conflictsWith := 0
  exampleText := "z"

/-- Reading a key just written by `mapSet` yields the new value; reading
any other key is unaffected. -/
theorem mapGet_mapSet {β : Type} (m : List (String × β)) (k : String) (v : β)
    (k' : String) :
    mapGet (mapSet m k v) k' = if k' = k then some v else mapGet m k' := by
  induction m with
  | nil =>
    rcases eq_or_ne k' k with h | h
    · subst h; simp [mapSet, mapGet]
    · simp [mapSet, mapGet, h, Ne.symm h]
  | cons hd tl ih =>
    obtain ⟨a, b⟩ := hd
    by_cases hak : a = k
    · subst hak
      rcases eq_or_ne k' a with h | h
      · subst h; simp [mapSet, mapGet]
      · simp [mapSet, mapGet, h, Ne.symm h]
    · rcases eq_or_ne k' a with h | h
      · subst h
        simp [mapSet, mapGet, hak, Ne.symm hak]
      · simp [mapSet, mapGet, hak, Ne.symm h, ih]

/-- The key list after `mapSet`: unchanged if the key was present,
otherwise extended at the end by the new key. -/
theorem keys_mapSet {β : Type} (m : List (String × β)) (k : String) (v : β) :
    (mapSet m k v).map Prod.fst =
      if k ∈ m.map Prod.fst then m.map Prod.fst else m.map Prod.fst ++ [k] := by
  induction m with
  | nil => simp [mapSet]
  | cons hd tl ih =>
    obtain ⟨a, b⟩ := hd
    by_cases hak : a = k
    · subst hak; simp [mapSet]
    · simp [mapSet, hak, Ne.symm hak, ih]
      by_cases hk : k ∈ tl.map Prod.fst <;> simp [hk, Ne.symm hak]

/-- `mapSet` preserves key uniqueness. -/
theorem nodup_keys_mapSet {β : Type} (m : List (String × β)) (k : String)
    (v : β) (h : (m.map Prod.fst).Nodup) :
    ((mapSet m k v).map Prod.fst).Nodup := by
  rw [keys_mapSet]
  by_cases hk : k ∈ m.map Prod.fst
  · simpa [hk]
  · simp [hk, List.nodup_append, h]

/-- Invariants transported along a left fold. -/
theorem foldl_invariant {α β : Type} (P : β → Prop) (f : β → α → β)
    (hf : ∀ b a, P b → P (f b a)) :
    ∀ (l : List α) (b : β), P b → P (l.foldl f b) := by
  intro l
  induction l with
  | nil => intro b hb; exact hb
  | cons hd tl ih => intro b hb; exact ih (f b hd) (hf b hd hb)

/-- The index built from any vocabulary has unique keys. -/
theorem nodup_keys_buildEmojiIndex (ontology : SceOntology) :
    ((buildEmojiIndex ontology).map Prod.fst).Nodup := by
  exact foldl_invariant (fun (m : EmojiIndex) => (m.map Prod.fst).Nodup)
    (fun map c => c.2.foldl (fun m kv => mapSet m kv.2.emoji kv.2) map)
    (fun m c hm =>
      foldl_invariant (fun (m : EmojiIndex) => (m.map Prod.fst).Nodup)
        (fun m kv => mapSet m kv.2.emoji kv.2)
        (fun m kv h => nodup_keys_mapSet m kv.2.emoji kv.2 h) c.2 m hm)
    ontology [] (by simp)

/-- A successful `mapGet` exposes a matching entry of the list. -/
theorem mapGet_mem {β : Type} (m : List (String × β)) (k : String) (v : β)
    (h : mapGet m k = some v) : (k, v) ∈ m := by
  induction m with
  | nil => simp [mapGet] at h
  | cons hd tl ih =>
    obtain ⟨a, b⟩ := hd
    by_cases hak : a = k
    · subst hak
      simp [mapGet] at h
      simp [h]
    · simp [mapGet, hak] at h
      exact List.mem_cons_of_mem _ (ih h)

/-- The nested category-then-definition left fold both `buildEmojiIndex`
and `validateOntology` perform equals a single left fold over the
flattened traversal. -/
theorem foldl_ontology_flatten {α γ : Type}
    (f : (String × SceOntologyCategory) → (String × SceSymbolDefinition) → γ)
    (g : α → γ → α) :
    ∀ (ontology : SceOntology) (init : α),
      ontology.foldl (fun acc c => c.2.foldl (fun a kv => g a (f c kv)) acc)
          init =
        (ontology.flatMap (fun c => c.2.map (f c))).foldl g init := by
  intro ontology
  induction ontology with
  | nil => intro init; simp
  | cons c rest ih =>
    intro init
    simp only [List.foldl_cons, List.flatMap_cons, List.foldl_append,
      List.foldl_map]
    exact ih _

/-- `buildEmojiIndex` as a single fold of `mapSet` over the definitions
in traversal order. -/
theorem buildEmojiIndex_eq_fold (ontology : SceOntology) :
    buildEmojiIndex ontology =
      (flattenVals ontology).foldl (fun m d => mapSet m d.emoji d) [] := by
  exact foldl_ontology_flatten (fun _ kv => kv.2)
    (fun m d => mapSet m d.emoji d) ontology []

/-- Folding `mapSet` over a definition list realises last-write-wins:
a lookup returns the last definition carrying the key, falling back to
the initial map. -/
theorem mapGet_fold_lastWrite (ds : List SceSymbolDefinition) :
    ∀ (m : EmojiIndex) (e : String),
      mapGet (ds.foldl (fun m d => mapSet m d.emoji d) m) e =
        (ds.reverse.find? (fun d => d.emoji == e)).or (mapGet m e) := by
  induction ds with
  | nil => intro m e; simp
  | cons d t ih =>
    intro m e
    simp only [List.foldl_cons, List.reverse_cons, List.find?_append, ih,
      mapGet_mapSet, Option.or_assoc]
    congr 1
    simp only [List.find?_singleton, beq_iff_eq]
    rcases eq_or_ne e d.emoji with h | h
    · simp [h]
    · simp [h, Ne.symm h]

/-- Index lookup is exactly the last-write-wins survivor. -/
theorem mapGet_buildEmojiIndex (ontology : SceOntology) (e : String) :
    mapGet (buildEmojiIndex ontology) e = lastDefFor ontology e := by
  rw [buildEmojiIndex_eq_fold, mapGet_fold_lastWrite]
  simp [lastDefFor, mapGet]

/-- `forEmojis` with an arbitrary accumulator. -/
theorem forEmojis_foldl_acc {β : Type} (index : List (String × β)) :
    ∀ (emojis : List String) (acc : List β),
      emojis.foldl
        (fun result e =>
          match mapGet index e with
          | some d => result ++ [d]
          | none => result) acc =
      acc ++ emojis.filterMap (mapGet index) := by
  intro emojis
  induction emojis with
  | nil => intro acc; simp
  | cons e rest ih =>
    intro acc
    simp only [List.foldl_cons, List.filterMap_cons]
    cases h : mapGet index e with
    | none => simp [h, ih]
    | some d => simp [h, ih]

/-- `forEmojis` is the in-order partial map of index lookup over the
input list. -/
theorem forEmojis_eq_filterMap {β : Type} (index : List (String × β))
    (emojis : List String) :
    forEmojis index emojis = emojis.filterMap (mapGet index) := by
  simpa [forEmojis] using forEmojis_foldl_acc index emojis []

/-- The empty pattern occurs in every text. -/
theorem strIncludes_empty (text : String) : strIncludes text "" = true := by
  show includesList text.data [] = true
  cases text.data with
  | nil => rfl
  | cons c rest => simp [includesList, List.isPrefixOf]

/-- Folding the found-set collection step over distinct keys none of
which is already collected appends exactly the keys satisfying the
predicate. -/
theorem setAdd_fold_filter (p : String → Bool) :
    ∀ (keys : List String) (acc : List String), keys.Nodup →
      (∀ x ∈ keys, x ∉ acc) →
      keys.foldl (fun found e => if p e then setAdd found e else found) acc =
        acc ++ keys.filter p := by
  intro keys
  induction keys with
  | nil => intro acc _ _; simp
  | cons e rest ih =>
    intro acc hnd hacc
    have hrest : rest.Nodup := (List.nodup_cons.mp hnd).2
    have herest : e ∉ rest := (List.nodup_cons.mp hnd).1
    simp only [List.foldl_cons]
    cases hp : p e with
    | false =>
      rw [if_neg (by simp [hp])]
      rw [ih acc hrest (fun x hx => hacc x (List.mem_cons_of_mem _ hx))]
      simp [List.filter_cons, hp]
    | true =>
      rw [if_pos (by simp [hp])]
      have he : e ∉ acc := hacc e (List.mem_cons_self e rest)
      have hset : setAdd acc e = acc ++ [e] := by
        have : acc.contains e = false := by
          cases hc : acc.contains e with
          | false => rfl
          | true => exact absurd (List.elem_iff.mp hc) he
        simp [setAdd, this, he]
      rw [hset, ih (acc ++ [e]) hrest]
      · simp [List.filter_cons, hp]
      · intro x hx
        simp only [List.mem_append, List.mem_singleton]
        rintro (h | h)
        · exact hacc x (List.mem_cons_of_mem _ hx) h
        · exact herest (h ▸ hx)

/-- `emojiFromText` as a fold over the index's key list. -/
theorem emojiFromText_eq_fold_keys {β : Type} (index : List (String × β))
    (text : String) :
    emojiFromText index text =
      (index.map Prod.fst).foldl
        (fun found e => if strIncludes text e then setAdd found e else found)
        [] := by
  rw [List.foldl_map]
  rfl

/-- With unique index keys, `emojiFromText` is exactly the in-order
filter of the key list by occurrence in the text. -/
theorem emojiFromText_eq_filter {β : Type} (index : List (String × β))
    (text : String) (h : (index.map Prod.fst).Nodup) :
    emojiFromText index text =
      (index.map Prod.fst).filter (fun e => strIncludes text e) := by
  rw [emojiFromText_eq_fold_keys]
  rw [setAdd_fold_filter _ _ [] h (by simp)]
  simp

/-- First sightings across a snoc of the traversed prefix. -/
theorem specFirstSight_append (pre : List (String × SceSymbolDefinition))
    (pd : String × SceSymbolDefinition) (e : String) :
    specFirstSight (pre ++ [pd]) e =
      (specFirstSight pre e).or
        (if pd.2.emoji == e then some pd.1 else none) := by
  simp only [specFirstSight, List.find?_append, List.find?_singleton]
  cases h : List.find? (fun q => q.2.emoji == e) pre with
  | some q => simp [h]
  | none => cases hb : pd.2.emoji == e <;> simp [h, hb]

/-- One validator iteration, written through the per-definition
diagnostics and the explicit seen-map update. -/
theorem validateDef_eq (errs : List String) (seen : List (String × String))
    (path : String) (d : SceSymbolDefinition) :
    validateDef (errs, seen) path d =
      (errs ++ specDiagnosticsAt path d (mapGet seen d.emoji),
       if (mapGet seen d.emoji).isSome then seen
       else mapSet seen d.emoji path) := by
  unfold validateDef specDiagnosticsAt
  cases h : mapGet seen d.emoji with
  | none => simp [h]
  | some fp => simp [h]

/-- The seen-map/first-sighting invariant survives one traversal step. -/
theorem seen_invariant_step (seen : List (String × String))
    (pre : List (String × SceSymbolDefinition)) (path : String)
    (d : SceSymbolDefinition)
    (hseen : ∀ e, mapGet seen e = specFirstSight pre e) :
    ∀ e, mapGet
        (if (mapGet seen d.emoji).isSome then seen
         else mapSet seen d.emoji path) e =
      specFirstSight (pre ++ [(path, d)]) e := by
  intro e
  rw [specFirstSight_append]
  cases h : mapGet seen d.emoji with
  | some fp =>
    simp only [h, Option.isSome_some, if_pos]
    cases hb : d.emoji == e with
    | false => simp [hseen e]
    | true =>
      have he : e = d.emoji := (eq_of_beq hb).symm
      subst he
      rw [← hseen d.emoji, h]
      simp
  | none =>
    simp only [h, Option.isSome_none, Bool.false_eq_true, if_neg,
      not_false_iff]
    rw [mapGet_mapSet]
    cases hb : d.emoji == e with
    | true =>
      have he : e = d.emoji := (eq_of_beq hb).symm
      subst he
      rw [← hseen d.emoji, h]
      simp
    | false =>
      have he : e ≠ d.emoji := fun hh => by simp [hh] at hb
      simp [he, hseen e]

/-- The validator's fold equals the declarative accumulation, given the
seen-map invariant for the already-traversed prefix. -/
theorem validate_fold (rest : List (String × SceSymbolDefinition)) :
    ∀ (pre : List (String × SceSymbolDefinition)) (errs : List String)
      (seen : List (String × String)),
      (∀ e, mapGet seen e = specFirstSight pre e) →
      (rest.foldl (fun a pd => validateDef a pd.1 pd.2) (errs, seen)).1 =
        errs ++ specValidateAux pre rest := by
  induction rest with
  | nil => intro pre errs seen _; simp [specValidateAux]
  | cons pd rest ih =>
    obtain ⟨path, d⟩ := pd
    intro pre errs seen hseen
    simp only [List.foldl_cons, specValidateAux]
    rw [validateDef_eq]
    rw [ih (pre ++ [(path, d)]) _ _ (seen_invariant_step seen pre path d hseen)]
    rw [hseen d.emoji]
    simp [List.append_assoc]

/-- `validateOntology` as a fold over the flattened traversal. -/
theorem validateOntology_eq_flatten (ontology : SceOntology) :
    validateOntology ontology =
      ((flattenDefs ontology).foldl
        (fun a pd => validateDef a pd.1 pd.2) ([], [])).1 := by
  have h := foldl_ontology_flatten
    (fun c kv => (c.1 ++ "." ++ kv.1, kv.2))
    (fun (a : List String × List (String × String)) pd =>
      validateDef a pd.1 pd.2)
    ontology ([], [])
  exact congrArg Prod.fst h

/-- The validator computes exactly its declarative specification. -/
theorem validateOntology_eq_specValidate (ontology : SceOntology) :
    validateOntology ontology = specValidate ontology := by
  rw [validateOntology_eq_flatten]
  have h := validate_fold (flattenDefs ontology) [] [] [] (fun e => rfl)
  simpa [specValidate] using h

/-- Any diagnostic a definition emits at its traversal position is in
the declarative accumulation. -/
theorem specValidateAux_mem (l1 : List (String × SceSymbolDefinition)) :
    ∀ (pre l2 : List (String × SceSymbolDefinition)) (path : String)
      (d : SceSymbolDefinition) (x : String),
      x ∈ specDiagnosticsAt path d (specFirstSight (pre ++ l1) d.emoji) →
      x ∈ specValidateAux pre (l1 ++ (path, d) :: l2) := by
  induction l1 with
  | nil =>
    intro pre l2 path d x hx
    simp only [List.nil_append, specValidateAux]
    exact List.mem_append_left _ (by simpa using hx)
  | cons q l1 ih =>
    obtain ⟨qp, qd⟩ := q
    intro pre l2 path d x hx
    simp only [List.cons_append, specValidateAux]
    refine List.mem_append_right _ (ih (pre ++ [(qp, qd)]) l2 path d x ?_)
    have : (pre ++ [(qp, qd)]) ++ l1 = pre ++ (qp, qd) :: l1 := by
      simp
    rw [this]
    exact hx

/-- `copyIndex` leaves both array stores untouched and only appends
fresh definition objects. -/
theorem copyIndex_store : ∀ (idx : HeapIndex) (s : Store),
    (copyIndex s idx).1.ctxArrays = s.ctxArrays ∧
    (copyIndex s idx).1.strArrays = s.strArrays ∧
    ∃ ext, (copyIndex s idx).1.defObjs = s.defObjs ++ ext := by
  intro idx
  induction idx with
  | nil => intro s; exact ⟨rfl, rfl, [], by simp [copyIndex]⟩
  | cons kv rest ih =>
    obtain ⟨k, r⟩ := kv
    intro s
    simp only [copyIndex]
    cases h : s.defObjs[r]? with
    | none => simpa [h] using ih s
    | some d =>
      simp only [h]
      obtain ⟨h1, h2, ext, h3⟩ := ih { s with defObjs := s.defObjs ++ [d] }
      exact ⟨h1, h2, d :: ext, by simpa using h3⟩

/-- The refs a `copyIndex` snapshot holds are all fresh: at or beyond
the original store's object count. -/
theorem copyIndex_refs_fresh : ∀ (idx : HeapIndex) (s : Store) (r' : Nat),
    r' ∈ (copyIndex s idx).2.map Prod.snd → s.defObjs.length ≤ r' := by
  intro idx
  induction idx with
  | nil => intro s r' h; simp [copyIndex] at h
  | cons kv rest ih =>
    obtain ⟨k, r⟩ := kv
    intro s r' hmem
    simp only [copyIndex] at hmem
    cases h : s.defObjs[r]? with
    | none =>
      rw [h] at hmem
      exact ih s r' hmem
    | some d =>
      rw [h] at hmem
      simp only [List.map_cons, List.mem_cons] at hmem
      rcases hmem with hmem | hmem
      · omega
      · have := ih { s with defObjs := s.defObjs ++ [d] } r' hmem
        simp at this
        omega

/-- `readDef` only looks at the object slot `r` and the array stores. -/
theorem readDef_agree (s s' : Store) (r : Nat)
    (hc : s'.ctxArrays = s.ctxArrays) (hs : s'.strArrays = s.strArrays)
    (hd : s'.defObjs[r]? = s.defObjs[r]?) :
    readDef s' r = readDef s r := by
  unfold readDef
  rw [hd, hc, hs]

/-- Two stores that agree (as seen by `readDef`) on every ref the live
index holds give identical observable `forEmojis` results. -/
theorem resolveObs_agree (s s' : Store) (live : HeapIndex)
    (emojis : List String)
    (h : ∀ r ∈ live.map Prod.snd, readDef s' r = readDef s r) :
    resolveObs s' live emojis = resolveObs s live emojis := by
  unfold resolveObs
  rw [forEmojis_eq_filterMap]
  refine List.map_congr_left ?_
  intro r hr
  rcases List.mem_filterMap.mp hr with ⟨e, _, hget⟩
  exact h r (List.mem_map.mpr ⟨(e, r), mapGet_mem live e r hget, rfl⟩)

/-- C1: for every interpreter (any emoji index) and every text,
`forText` returns exactly the same definition list as `forEmojis`
applied to `emojiFromText` — the compositional law holds by the very
definition of `forText`. -/
theorem claim_C1_forText_composition {β : Type} (index : List (String × β))
    (text : String) :
    forText index text = forEmojis index (emojiFromText index text) := rfl

/-- C2: `forEmojis` is the in-order partial map of index lookup over the
input list — it preserves input order and multiplicity, silently skips
unknown graphemes and cannot fail — and over the canonical vocabulary
`["🔍","😀","🧠"]` resolves to exactly the analyze and insight
definitions in that order, while a duplicated input grapheme yields two
identical entries. -/
theorem claim_C2_forEmojis_order :
    (∀ (index : EmojiIndex) (emojis : List String),
        forEmojis index emojis = emojis.filterMap (mapGet index)) ∧
    forEmojis (buildEmojiIndex SemanticOntologySchema) ["🔍", "😀", "🧠"] =
      [analyzeDef, insightDef] ∧
    forEmojis (buildEmojiIndex SemanticOntologySchema) ["🔍", "🔍"] =
      [analyzeDef, analyzeDef] :=
  ⟨fun index emojis => forEmojis_eq_filterMap index emojis, by decide,
    by decide⟩

/-- C3: over any vocabulary's index, `emojiFromText` returns exactly the
index graphemes occurring as a substring of the text, each exactly once
(it is the duplicate-free in-order filter of the key list), and on the
canonical vocabulary the empty text and a symbol-free text both yield
empty extraction and resolution results. -/
theorem claim_C3_emojiFromText_spec :
    (∀ (ontology : SceOntology) (text : String),
        emojiFromText (buildEmojiIndex ontology) text =
          ((buildEmojiIndex ontology).map Prod.fst).filter
            (fun e => strIncludes text e) ∧
        (emojiFromText (buildEmojiIndex ontology) text).Nodup ∧
        ∀ e, e ∈ emojiFromText (buildEmojiIndex ontology) text ↔
          e ∈ (buildEmojiIndex ontology).map Prod.fst ∧
            strIncludes text e = true) ∧
    emojiFromText (buildEmojiIndex SemanticOntologySchema) "" = [] ∧
    emojiFromText (buildEmojiIndex SemanticOntologySchema)
      "no symbols here" = [] ∧
    forText (buildEmojiIndex SemanticOntologySchema) "" = [] ∧
    forText (buildEmojiIndex SemanticOntologySchema) "no symbols here" = [] := by
  refine ⟨?_, by decide, by decide, by decide, by decide⟩
  intro ontology text
  have hnd := nodup_keys_buildEmojiIndex ontology
  have hf := emojiFromText_eq_filter (buildEmojiIndex ontology) text hnd
  refine ⟨hf, ?_, ?_⟩
  · rw [hf]; exact hnd.filter _
  · intro e
    rw [hf]
    exact List.mem_filter

/-- C5: the validator traverses categories then definitions in the
declared order and, per definition, emits the missing-grapheme message,
the duplicate message against the recorded first sighting, and the
empty-`allowedContext` message, accumulating all diagnostics in
traversal order — it computes exactly the declarative specification
`specValidate`. -/
theorem claim_C5_validator_algorithm (ontology : SceOntology) :
    validateOntology ontology = specValidate ontology :=
  validateOntology_eq_specValidate ontology

/-- C6: the canonical vocabulary validates cleanly — no diagnostics,
and indeed every canonical definition has a non-empty grapheme and a
non-empty `allowedContext`, and no grapheme is used twice. -/
theorem claim_C6_canonical_valid :
    validateOntology SemanticOntologySchema = [] ∧
    (∀ pd ∈ flattenDefs SemanticOntologySchema,
        pd.2.emoji ≠ "" ∧ pd.2.allowedContext ≠ []) ∧
    ((flattenVals SemanticOntologySchema).map
      SceSymbolDefinition.emoji).Nodup := by
  refine ⟨by decide, by decide, by decide⟩

/-- C7: index construction is total over any vocabulary and maps each
grapheme to the definition that last wrote it in traversal order
(last-write-wins, no uniqueness check); on a vocabulary with a
duplicated grapheme the later definition silently replaces the
earlier. -/
theorem claim_C7_buildIndex_lastWrite :
    (∀ (ontology : SceOntology) (e : String),
        mapGet (buildEmojiIndex ontology) e = lastDefFor ontology e) ∧
    mapGet (buildEmojiIndex dupOntology) "🔍" = some dupSecondDef :=
  ⟨mapGet_buildEmojiIndex, by decide⟩

/-- C8: the end-to-end scenario text resolves, over the canonical
vocabulary, to exactly the pinned, pending and warning definitions (in
index order), which live in categories `structure`, `state` and `state`
and carry the corresponding roles — no duplicates, no others. -/
theorem claim_C8_endToEnd :
    forText (buildEmojiIndex SemanticOntologySchema)
        "📌 First report was on 2024-11-06. ⏳ Investigation is still pending. ⚠️ Parent has raised safety concerns." =
      [pinnedDef, pendingDef, warningDef] ∧
    ("pinned", pinnedDef) ∈ (mapGet SemanticOntologySchema "structure").getD [] ∧
    ("pending", pendingDef) ∈ (mapGet SemanticOntologySchema "state").getD [] ∧
    ("warning", warningDef) ∈ (mapGet SemanticOntologySchema "state").getD [] ∧
    pinnedDef.role = SceRole.STRUCTURE ∧
    pendingDef.role = SceRole.STATE ∧
    warningDef.role = SceRole.STATE := by
  decide

/-- C4 counterexample: the snapshot returned by `copyIndex` shares its
`conflictsWith` arrays with the live index's definitions (the copy is
shallow), so pushing onto that array through the snapshot's entry (ref
1, the freshly copied object) changes the result of a subsequent
`resolveSymbols` query against the live Resolver. -/
theorem claim_C4_counterexample :
    (copyIndex c4Store c4Live).2 = [("🔍", 1)] ∧
    resolveObs (pushConflictsWith (copyIndex c4Store c4Live).1 1 "X")
        c4Live ["🔍"] ≠
      resolveObs c4Store c4Live ["🔍"] := by
  decide

/-- C4 (amended): mutations that replace a snapshot entry's definition
object outright — reassigning any of its fields — never change the
result of a subsequent `resolveSymbols` or `resolveText` query against
the live Resolver, because `copyIndex` allocates only fresh objects and
touches neither array store; isolation fails only for in-place
mutation of the arrays shared through the shallow copy (see the
counterexample). -/
theorem claim_C4_snapshot_isolation_amended (s : Store) (live : HeapIndex)
    (hlive : ∀ kv ∈ live, kv.2 < s.defObjs.length)
    (r' : Nat) (hr : r' ∈ (copyIndex s live).2.map Prod.snd)
    (d' : HeapDef) (emojis : List String) (text : String) :
    resolveObs (setDefObj (copyIndex s live).1 r' d') live emojis =
      resolveObs s live emojis ∧
    forTextObs (setDefObj (copyIndex s live).1 r' d') live text =
      forTextObs s live text := by
  obtain ⟨hc, hs, ext, hdefs⟩ := copyIndex_store live s
  have hfresh := copyIndex_refs_fresh live s r' hr
  have hread : ∀ r ∈ live.map Prod.snd,
      readDef (setDefObj (copyIndex s live).1 r' d') r = readDef s r := by
    intro r hrmem
    rcases List.mem_map.mp hrmem with ⟨kv, hkv, hsnd⟩
    have hlt : r < s.defObjs.length := hsnd ▸ hlive kv hkv
    have hne : ¬(r' = r) := by omega
    refine readDef_agree s _ r (by simp [setDefObj, hc]) (by simp [setDefObj, hs]) ?_
    show ((copyIndex s live).1.defObjs.set r' d')[r]? = s.defObjs[r]?
    rw [List.getElem?_set]
    rw [if_neg hne, hdefs, List.getElem?_append]
    rw [if_pos hlt]
  exact ⟨resolveObs_agree s _ live emojis hread,
    resolveObs_agree s _ live (emojiFromText live text) hread⟩

/-- C4 witness: the amended isolation theorem applied to the concrete
one-definition store, overwriting the snapshot's freshly copied object
(ref 1) and observing the live query unchanged. -/
theorem claim_C4_witness :
    (∀ kv ∈ c4Live, kv.2 < c4Store.defObjs.length) ∧
    (1 : Nat) ∈ (copyIndex c4Store c4Live).2.map Prod.snd ∧
    resolveObs (setDefObj (copyIndex c4Store c4Live).1 1 c4Mutant)
        c4Live ["🔍"] =
      resolveObs c4Store c4Live ["🔍"] :=
  ⟨by decide, by decide,
    (claim_C4_snapshot_isolation_amended c4Store c4Live (by decide) 1
      (by decide) c4Mutant ["🔍"] "t").1⟩

/-- C9: if any definition of the vocabulary carries the empty grapheme,
the built index keys the empty string (the substring test accepts the
empty pattern in every text), so `emojiFromText` includes the empty
grapheme for every input text and `forText` never returns an empty
list. -/
theorem claim_C9_emptyGrapheme (ontology : SceOntology) (text : String)
    (d0 : SceSymbolDefinition) (h1 : d0 ∈ flattenVals ontology)
    (h2 : d0.emoji = "") :
    strIncludes text "" = true ∧
    "" ∈ (buildEmojiIndex ontology).map Prod.fst ∧
    "" ∈ emojiFromText (buildEmojiIndex ontology) text ∧
    forText (buildEmojiIndex ontology) text ≠ [] := by
  have hinc := strIncludes_empty text
  have hfind : ∃ v, mapGet (buildEmojiIndex ontology) "" = some v := by
    rw [mapGet_buildEmojiIndex]
    unfold lastDefFor
    cases hf : (flattenVals ontology).reverse.find? (fun d => d.emoji == "") with
    | some v => exact ⟨v, rfl⟩
    | none =>
      exfalso
      have := List.find?_eq_none.mp hf d0 (List.mem_reverse.mpr h1)
      simp [h2] at this
  obtain ⟨v, hv⟩ := hfind
  have hkey : "" ∈ (buildEmojiIndex ontology).map Prod.fst :=
    List.mem_map.mpr ⟨("", v), mapGet_mem _ _ _ hv, rfl⟩
  have hnd := nodup_keys_buildEmojiIndex ontology
  have hfound : "" ∈ emojiFromText (buildEmojiIndex ontology) text := by
    rw [emojiFromText_eq_filter _ _ hnd]
    exact List.mem_filter.mpr ⟨hkey, hinc⟩
  refine ⟨hinc, hkey, hfound, ?_⟩
  unfold forText
  rw [forEmojis_eq_filterMap]
  exact List.ne_nil_of_mem (List.mem_filterMap.mpr ⟨"", hfound, hv⟩)

/-- C9 witness: a vocabulary containing an empty-grapheme definition
makes `forText` non-empty even on an unrelated text. -/
theorem claim_C9_witness :
    emptyEmojiDef ∈ flattenVals twoEmptyOntology ∧
    emptyEmojiDef.emoji = "" ∧
    forText (buildEmojiIndex twoEmptyOntology) "hello" ≠ [] :=
  ⟨by decide, rfl,
    (claim_C9_emptyGrapheme twoEmptyOntology "hello" emptyEmojiDef
      (by decide) rfl).2.2.2⟩

/-- C10: the validator's duplicate tracking also covers empty
graphemes: with two empty-grapheme definitions (the first at `p1`, the
earliest empty grapheme of the traversal, a later one at `p2`), the
diagnostics contain a missing-grapheme message for each and a
duplicate message for the later one naming the earlier path — so one
defective definition can contribute several diagnostics. -/
theorem claim_C10_validator_empty_duplicates (ontology : SceOntology)
    (pre mid post : List (String × SceSymbolDefinition))
    (p1 p2 : String) (d1 d2 : SceSymbolDefinition)
    (hflat : flattenDefs ontology =
      pre ++ (p1, d1) :: mid ++ (p2, d2) :: post)
    (h1 : d1.emoji = "") (h2 : d2.emoji = "")
    (hpre : ∀ q ∈ pre, q.2.emoji ≠ "") :
    ("Missing emoji at " ++ p1) ∈ validateOntology ontology ∧
    ("Missing emoji at " ++ p2) ∈ validateOntology ontology ∧
    ("Duplicate emoji  at " ++ p2 ++ ", already used at " ++ p1) ∈
      validateOntology ontology := by
  rw [validateOntology_eq_specValidate]
  unfold specValidate
  have hpre_none :
      List.find? (fun pd => pd.2.emoji == "") pre = none :=
    List.find?_eq_none.mpr (fun q hq => by simpa using hpre q hq)
  refine ⟨?_, ?_, ?_⟩
  · rw [hflat, List.append_assoc, List.cons_append]
    refine specValidateAux_mem pre [] (mid ++ (p2, d2) :: post) p1 d1 _ ?_
    simp [specDiagnosticsAt, h1]
  · rw [hflat]
    refine specValidateAux_mem (pre ++ (p1, d1) :: mid) [] post p2 d2 _ ?_
    simp [specDiagnosticsAt, h2]
  · rw [hflat]
    refine specValidateAux_mem (pre ++ (p1, d1) :: mid) [] post p2 d2 _ ?_
    have hfs : specFirstSight ([] ++ (pre ++ (p1, d1) :: mid)) d2.emoji =
        some p1 := by
      rw [h2]
      simp [specFirstSight, List.find?_append, hpre_none, List.find?_cons, h1]
    rw [hfs]
    simp only [specDiagnosticsAt, h2]
    rw [show ("Duplicate emoji " ++ "" : String) = "Duplicate emoji " from rfl]
    rw [show ("Duplicate emoji " ++ " at " : String) =
      "Duplicate emoji  at " from rfl]
    simp

/-- C10 witness: both empty-grapheme definitions of the concrete
two-definition vocabulary draw a missing-grapheme diagnostic, and the
later one additionally draws the duplicate diagnostic naming the
earlier path. -/
theorem claim_C10_witness :
    ("Missing emoji at " ++ "c.a") ∈ validateOntology twoEmptyOntology ∧
    ("Missing emoji at " ++ "c.b") ∈ validateOntology twoEmptyOntology ∧
    ("Duplicate emoji  at " ++ "c.b" ++ ", already used at " ++ "c.a") ∈
      validateOntology twoEmptyOntology :=
  claim_C10_validator_empty_duplicates twoEmptyOntology [] [] [] "c.a" "c.b"
    emptyEmojiDef emptyEmojiDef (by decide) rfl rfl (by simp)
